import Mathlib

/-!
Shallow embedding of the TEM (Telugu English Mentor) backend:
`src/backend/database.py` (SQLite-backed conversation store) and
`src/backend/app.py` (the `/api/chat` orchestration around the
OpenRouter completion call).

The SQLite state is modelled explicitly: the `conversations` table is a
list of rows in insertion order with store-assigned AUTOINCREMENT ids,
the `user_stats` table is a list of rows keyed by `user_id`, and
`nextId` is the autoincrement counter.  Network effects are modelled by
passing the provider outcome as a parameter and recording the payloads
of the outbound calls that were performed.
-/

/-- A row of the `conversations` table
(`database.py`, `init_database`): id is the AUTOINCREMENT primary key. -/
structure Turn where
  id : Nat
  user_id : String
  user_message : String
  ai_response : String
  timestamp : String
deriving DecidableEq, Repr

/-- A row of the `user_stats` table (`database.py`, `init_database`),
keyed by `user_id`. -/
structure UserStats where
  user_id : String
  total_conversations : Nat
  last_active : String
deriving DecidableEq, Repr

/-- The SQLite database state used by `database.py`. -/
structure Database where
  conversations : List Turn
  user_stats : List UserStats
  nextId : Nat
deriving DecidableEq, Repr

/-- The freshly created database (`init_database`): both tables empty,
AUTOINCREMENT ids start at 1. -/
def Database.empty : Database := ⟨[], [], 1⟩

/-- The `INSERT INTO user_stats ... ON CONFLICT(user_id) DO UPDATE SET
total_conversations = total_conversations + 1, last_active = ?` upsert
in `Database.save_conversation`. -/
def upsertStats (stats : List UserStats) (uid ts : String) : List UserStats :=
  match stats with
  | [] => [⟨uid, 1, ts⟩]
  | s :: rest =>
    if s.user_id = uid then ⟨s.user_id, s.total_conversations + 1, ts⟩ :: rest
    else s :: upsertStats rest uid ts

/-- `Database.save_conversation` (`database.py` lines 68-93): inserts a
conversation row (AUTOINCREMENT assigns the next id) and upserts the
user's stats row, in one transaction. -/
def Database.save_conversation (db : Database)
    (user_id user_message ai_response timestamp : String) : Database :=
  { conversations :=
      db.conversations ++ [⟨db.nextId, user_id, user_message, ai_response, timestamp⟩],
    user_stats := upsertStats db.user_stats user_id timestamp,
    nextId := db.nextId + 1 }

/-- Insertion step of sorting by id descending (models SQL `ORDER BY id DESC`). -/
def insertDescById (a : Turn) : List Turn → List Turn
  | [] => [a]
  | b :: l => if b.id ≤ a.id then a :: b :: l else b :: insertDescById a l

/-- Sorting a list of rows by id descending (models SQL `ORDER BY id DESC`). -/
def sortDescById : List Turn → List Turn
  | [] => []
  | a :: l => insertDescById a (sortDescById l)

/-- The rows of the `conversations` table with `WHERE user_id = ?`. -/
def Database.userRows (db : Database) (user_id : String) : List Turn :=
  db.conversations.filter (fun t => t.user_id == user_id)

/-- The rows produced by the query in `Database.get_conversation_history`
(`SELECT ... WHERE user_id = ? ORDER BY id DESC LIMIT ?`), after the
final Python-side `history.reverse()` that restores chronological
order. -/
def Database.historyRows (db : Database) (user_id : String) (limit : Nat) : List Turn :=
  ((sortDescById (db.userRows user_id)).take limit).reverse

/-- The dictionary shape returned by `Database.get_conversation_history`:
the query selects only `user_message, ai_response, timestamp`. -/
structure HistoryEntry where
  user_message : String
  ai_response : String
  timestamp : String
deriving DecidableEq, Repr

/-- Projection of a row to the selected columns. -/
def Turn.toEntry (t : Turn) : HistoryEntry := ⟨t.user_message, t.ai_response, t.timestamp⟩

/-- `Database.get_conversation_history` (`database.py` lines 95-118):
last `limit` rows for the user, reversed to chronological order, as
dictionaries of the selected columns. -/
def Database.get_conversation_history (db : Database) (user_id : String) (limit : Nat) :
    List HistoryEntry :=
  (db.historyRows user_id limit).map Turn.toEntry

/-- `Database.get_conversation_count` (`database.py` lines 120-136):
`SELECT total_conversations FROM user_stats WHERE user_id = ?`;
`fetchone` returns the first matching row, and a missing row yields 0. -/
def Database.get_conversation_count (db : Database) (user_id : String) : Nat :=
  match db.user_stats.find? (fun s => s.user_id == user_id) with
  | some s => s.total_conversations
  | none => 0

/-- `Database.clear_user_history` (`database.py` lines 138-156): deletes
the user's rows from both tables.  SQLite AUTOINCREMENT does not reuse
ids, so `nextId` is unchanged. -/
def Database.clear_user_history (db : Database) (user_id : String) : Database :=
  { conversations := db.conversations.filter (fun t => !(t.user_id == user_id)),
    user_stats := db.user_stats.filter (fun s => !(s.user_id == user_id)),
    nextId := db.nextId }

/-- `Database.get_user_level` (`database.py` lines 158-169). -/
def Database.get_user_level (db : Database) (user_id : String) : String :=
  let count := db.get_conversation_count user_id
  if count > 50 then "Advanced"
  else if count > 20 then "Intermediate"
  else "Beginner"

/-- The level computation inlined in the `chat` handler
(`app.py` lines 147-152) and in `get_stats` (lines 192-196). -/
def levelFromCount (conversation_count : Nat) : String :=
  if conversation_count > 50 then "Advanced"
  else if conversation_count > 20 then "Intermediate"
  else "Beginner"

/-- Refinement reference ONLY: the level rule as the spec words it
(`level = Beginner if C<=20, Intermediate if 20<C<=50, Advanced if
C>50`), to be compared with `levelFromCount` from the source. -/
def specLevel (C : Nat) : String :=
  if C ≤ 20 then "Beginner"
  else if C ≤ 50 then "Intermediate"
  else "Advanced"

/-- The fixed system prompt of `app.py` (`SYSTEM_PROMPT`, lines 25-45). -/
def SYSTEM_PROMPT : String := "You are TEM (Telugu English Mentor), a friendly, patient AI designed to help Telugu speakers learn fluent English.

Your role:
- Understand Telugu, Tanglish (Telugu written in English), and broken English
- Respond mainly in simple, natural English
- Use Telugu only when clarification is needed for complex concepts
- Correct mistakes politely and constructively
- Encourage confidence and celebrate progress
- Act like a human mentor, not a robot

Guidelines:
- When user makes mistakes, gently correct them: \"Good try! Instead of 'I am going to market', say 'I am going to the market'\"
- Provide simple explanations for grammar rules
- Use real-life conversation examples
- Be encouraging: \"Great improvement!\", \"You're doing well!\"
- If user speaks Telugu, understand it and respond in simple English
- For pronunciation help, explain in text how to say words
- Keep responses conversational and natural
- Adapt your teaching based on user's level (beginner/intermediate/advanced)

Remember: You're helping someone build confidence in English. Be patient, kind, and motivating!"

/-- One `{role, content}` entry of the outbound `messages` array. -/
structure Message where
  role : String
  content : String
deriving DecidableEq, Repr

/-- The outcome of the single outbound HTTP attempt in
`call_openrouter_api`: a 200 response whose body parsed to a content
string, a non-200 response with its status and text, a
`requests.exceptions.Timeout`, or any other exception. -/
inductive ProviderOutcome where
  | success (content : String)
  | httpError (status : Nat) (text : String)
  | timeout
  | exception (msg : String)
deriving DecidableEq, Repr

/-- The dictionary `call_openrouter_api` returns:
`{error: False, response}` or `{error: True, message}`. -/
inductive ApiResult where
  | ok (response : String)
  | err (message : String)
deriving DecidableEq, Repr

/-- `call_openrouter_api` (`app.py` lines 47-99), with the outbound
network effect made explicit: the second component lists the payloads
of the HTTP calls actually performed (empty when the API key is
missing, since the function returns before any network call). -/
def call_openrouter_api (api_key : String) (outcome : ProviderOutcome)
    (messages : List Message) : ApiResult × List (List Message) :=
  if api_key = "" then
    (ApiResult.err "API key not configured. Please set OPENROUTER_API_KEY environment variable.",
     [])
  else
    let payload := Message.mk "system" SYSTEM_PROMPT :: messages
    match outcome with
    | ProviderOutcome.success content => (ApiResult.ok content, [payload])
    | ProviderOutcome.httpError status text =>
        (ApiResult.err ("API Error: " ++ toString status ++ " - " ++ text), [payload])
    | ProviderOutcome.timeout =>
        (ApiResult.err "Request timeout. Please try again.", [payload])
    | ProviderOutcome.exception m =>
        (ApiResult.err ("Error calling AI: " ++ m), [payload])

/-- The characters Python's `str.strip()` removes (ASCII whitespace). -/
def isPyWhitespace (c : Char) : Bool :=
  c == ' ' || c == '\t' || c == '\n' || c == '\r' || c == '\x0b' || c == '\x0c'

/-- Python's `str.strip()` as used in `data.get('message', '').strip()`
(`app.py` line 114): drops leading and trailing whitespace. -/
def pyStrip (s : String) : String :=
  ⟨((s.data.dropWhile isPyWhitespace).reverse.dropWhile isPyWhitespace).reverse⟩

/-- The HTTP response of the `chat` handler: 400 with a message, 500
with a message, or 200 with response text, level and count. -/
inductive ChatResult where
  | badRequest (message : String)
  | serverError (message : String)
  | ok (response : String) (level : String) (conversation_count : Nat)
deriving DecidableEq, Repr

/-- The `/api/chat` handler (`app.py` lines 106-165) as a pure
function: given the database state, the configured API key, the
provider outcome, the request fields and the wall-clock timestamp that
`save_conversation` would record, it returns the HTTP result, the new
database state and the payloads of the outbound calls performed. -/
def chat (db : Database) (api_key : String) (outcome : ProviderOutcome)
    (message_field user_id timestamp : String) :
    ChatResult × Database × List (List Message) :=
  let user_message := pyStrip message_field
  if user_message = "" then
    (ChatResult.badRequest "Message cannot be empty", db, [])
  else
    let history := db.get_conversation_history user_id 10
    let messages := history.foldl
      (fun acc msg =>
        acc ++ [Message.mk "user" msg.user_message, Message.mk "assistant" msg.ai_response]) []
    let messages := messages ++ [Message.mk "user" user_message]
    let rc := call_openrouter_api api_key outcome messages
    match rc.1 with
    | ApiResult.err m => (ChatResult.serverError m, db, rc.2)
    | ApiResult.ok ai_response =>
        let db2 := db.save_conversation user_id user_message ai_response timestamp
        let conversation_count := db2.get_conversation_count user_id
        (ChatResult.ok ai_response (levelFromCount conversation_count) conversation_count,
         db2, rc.2)

/-- Whether a chat result is the 500-class error response. -/
def ChatResult.isServerError : ChatResult → Bool
  | ChatResult.serverError _ => true
  | _ => false

/-- The database states reachable from the fresh database by any
sequence of `save_conversation` and `clear_user_history` operations. -/
inductive Reachable : Database → Prop where
  | empty : Reachable Database.empty
  | save (db : Database) (uid msg resp ts : String) :
      Reachable db → Reachable (db.save_conversation uid msg resp ts)
  | clear (db : Database) (uid : String) :
      Reachable db → Reachable (db.clear_user_history uid)

/-- Well-formedness of the modelled SQLite state: conversation rows
stand in insertion order with strictly increasing AUTOINCREMENT ids,
all below the autoincrement counter. -/
def Database.WF (db : Database) : Prop :=
  db.conversations.Pairwise (fun a b => a.id < b.id) ∧
  ∀ t ∈ db.conversations, t.id < db.nextId

/-- Proof helper: `Database.get_conversation_count` as a function of the
`user_stats` rows alone (definitionally equal, see `statsCount_eq`). -/
def statsCount (stats : List UserStats) (uid : String) : Nat :=
  match stats.find? (fun s => s.user_id == uid) with
  | some s => s.total_conversations
  | none => 0

/-- A small concrete reachable state: two saved turns for user `u`. -/
def exDb : Database :=
  (Database.empty.save_conversation "u" "m1" "r1" "t1").save_conversation "u" "m2" "r2" "t2"

/-- C1: for every conversation count C the derived level is Beginner if
C ≤ 20, Intermediate if 20 < C ≤ 50 and Advanced if C > 50; in both
places the code computes it (the inlined rule of `chat`/`get_stats` and
`Database.get_user_level`); in particular 20 ↦ Beginner, 21 ↦
Intermediate, 50 ↦ Intermediate, 51 ↦ Advanced. -/
theorem c1_level_boundaries :
    (∀ C : Nat, levelFromCount C = specLevel C) ∧
    (∀ (db : Database) (uid : String),
      db.get_user_level uid = levelFromCount (db.get_conversation_count uid)) ∧
    levelFromCount 20 = "Beginner" ∧ levelFromCount 21 = "Intermediate" ∧
    levelFromCount 50 = "Intermediate" ∧ levelFromCount 51 = "Advanced" := by
  refine ⟨?_, fun db uid => rfl, rfl, rfl, rfl, rfl⟩
  intro C
  unfold levelFromCount specLevel
  rcases Nat.lt_or_ge 50 C with h50 | h50
  · rw [if_pos h50, if_neg (by omega), if_neg (by omega)]
  · rw [if_neg (by omega)]
    rcases Nat.lt_or_ge 20 C with h20 | h20
    · rw [if_pos h20, if_neg (by omega), if_pos (by omega)]
    · rw [if_neg (by omega), if_pos (by omega)]

/-! ### Store lemmas -/

theorem statsCount_eq (db : Database) (uid : String) :
    db.get_conversation_count uid = statsCount db.user_stats uid := rfl

theorem insertDescById_of_forall_lt (a : Turn) (m : List Turn)
    (h : ∀ b ∈ m, a.id < b.id) : insertDescById a m = m ++ [a] := by
  induction m with
  | nil => rfl
  | cons b l ih =>
    have hb : a.id < b.id := h b (List.mem_cons_self b l)
    have hnb : ¬ b.id ≤ a.id := by omega
    simp only [insertDescById, if_neg hnb, List.cons_append]
    rw [ih fun c hc => h c (List.mem_cons_of_mem b hc)]

theorem sortDescById_eq_reverse (l : List Turn)
    (h : l.Pairwise (fun x y => x.id < y.id)) : sortDescById l = l.reverse := by
  induction l with
  | nil => rfl
  | cons a t ih =>
    obtain ⟨ha, ht⟩ := List.pairwise_cons.mp h
    simp only [sortDescById, ih ht, List.reverse_cons]
    exact insertDescById_of_forall_lt a t.reverse fun b hb => ha b (List.mem_reverse.mp hb)

theorem userRows_pairwise {db : Database} (h : db.WF) (uid : String) :
    (db.userRows uid).Pairwise (fun a b => a.id < b.id) :=
  List.Pairwise.sublist (List.filter_sublist db.conversations) h.1

theorem historyRows_eq_drop {db : Database} (h : db.WF) (uid : String) (L : Nat) :
    db.historyRows uid L = (db.userRows uid).drop ((db.userRows uid).length - L) := by
  unfold Database.historyRows
  rw [sortDescById_eq_reverse _ (userRows_pairwise h uid), List.take_reverse,
    List.reverse_reverse]

theorem historyRows_length_le (db : Database) (uid : String) (L : Nat) :
    (db.historyRows uid L).length ≤ L := by
  unfold Database.historyRows
  rw [List.length_reverse]
  exact List.length_take_le L _

theorem userRows_save_self (db : Database) (uid m r ts : String) :
    (db.save_conversation uid m r ts).userRows uid
      = db.userRows uid ++ [⟨db.nextId, uid, m, r, ts⟩] := by
  unfold Database.userRows Database.save_conversation
  rw [List.filter_append]
  simp

theorem userRows_save_other {u v : String} (huv : u ≠ v) (db : Database) (m r ts : String) :
    (db.save_conversation u m r ts).userRows v = db.userRows v := by
  unfold Database.userRows Database.save_conversation
  rw [List.filter_append]
  simp [huv]

theorem userRows_clear_self (db : Database) (uid : String) :
    (db.clear_user_history uid).userRows uid = [] := by
  unfold Database.userRows Database.clear_user_history
  rw [List.filter_filter]
  simp

theorem userRows_clear_other {u v : String} (huv : u ≠ v) (db : Database) :
    (db.clear_user_history u).userRows v = db.userRows v := by
  unfold Database.userRows Database.clear_user_history
  rw [List.filter_filter]
  apply List.filter_congr
  intro t _
  by_cases h : t.user_id = v
  · have hu : t.user_id ≠ u := by rw [h]; exact Ne.symm huv
    simp [h, hu, Ne.symm huv]
  · simp [h]

theorem statsCount_upsert_self (stats : List UserStats) (uid ts : String) :
    statsCount (upsertStats stats uid ts) uid = statsCount stats uid + 1 := by
  induction stats with
  | nil => simp [upsertStats, statsCount, List.find?]
  | cons s rest ih =>
    by_cases h : s.user_id = uid
    · unfold statsCount
      simp only [upsertStats, if_pos h]
      rw [List.find?_cons_of_pos _ (by simp [h]), List.find?_cons_of_pos _ (by simp [h])]
    · unfold statsCount at ih ⊢
      simp only [upsertStats, if_neg h]
      rw [List.find?_cons_of_neg _ (by simp [h]), List.find?_cons_of_neg _ (by simp [h])]
      exact ih

theorem statsCount_upsert_other {u v : String} (huv : u ≠ v)
    (stats : List UserStats) (ts : String) :
    statsCount (upsertStats stats u ts) v = statsCount stats v := by
  induction stats with
  | nil =>
    have hfalse : (u == v) = false := by simp [huv]
    unfold statsCount
    simp [upsertStats, List.find?, hfalse]
  | cons s rest ih =>
    by_cases h : s.user_id = u
    · have hv : ¬ s.user_id = v := by rw [h]; exact huv
      unfold statsCount
      simp only [upsertStats, if_pos h]
      rw [List.find?_cons_of_neg _ (by simp [hv]), List.find?_cons_of_neg _ (by simp [hv])]
    · unfold statsCount at ih ⊢
      simp only [upsertStats, if_neg h]
      by_cases hv : s.user_id = v
      · rw [List.find?_cons_of_pos _ (by simp [hv]), List.find?_cons_of_pos _ (by simp [hv])]
      · rw [List.find?_cons_of_neg _ (by simp [hv]), List.find?_cons_of_neg _ (by simp [hv])]
        exact ih

theorem statsCount_filter_self (stats : List UserStats) (uid : String) :
    statsCount (stats.filter (fun s => !(s.user_id == uid))) uid = 0 := by
  have hnone : (stats.filter (fun s => !(s.user_id == uid))).find?
      (fun s => s.user_id == uid) = none := by
    rw [List.find?_eq_none]
    intro s hs
    have h2 := (List.mem_filter.mp hs).2
    simp at h2
    simp [h2]
  unfold statsCount
  rw [hnone]

theorem statsCount_filter_other {u v : String} (huv : u ≠ v) (stats : List UserStats) :
    statsCount (stats.filter (fun s => !(s.user_id == u))) v = statsCount stats v := by
  induction stats with
  | nil => rfl
  | cons s rest ih =>
    by_cases h : s.user_id = u
    · have hv : ¬ s.user_id = v := by rw [h]; exact huv
      unfold statsCount at ih ⊢
      rw [List.filter_cons_of_neg (by simp [h])]
      rw [List.find?_cons_of_neg _ (by simp [hv])]
      exact ih
    · unfold statsCount at ih ⊢
      rw [List.filter_cons_of_pos (by simp [h])]
      by_cases hv : s.user_id = v
      · rw [List.find?_cons_of_pos _ (by simp [hv]), List.find?_cons_of_pos _ (by simp [hv])]
      · rw [List.find?_cons_of_neg _ (by simp [hv]), List.find?_cons_of_neg _ (by simp [hv])]
        exact ih

theorem wf_empty : Database.empty.WF := by
  constructor
  · exact List.Pairwise.nil
  · intro t ht
    cases ht

theorem wf_save {db : Database} (h : db.WF) (uid m r ts : String) :
    (db.save_conversation uid m r ts).WF := by
  obtain ⟨hp, hb⟩ := h
  refine ⟨?_, ?_⟩
  · show (db.conversations ++ [(⟨db.nextId, uid, m, r, ts⟩ : Turn)]).Pairwise
      (fun a b => a.id < b.id)
    rw [List.pairwise_append]
    refine ⟨hp, List.pairwise_singleton _ _, ?_⟩
    intro a ha b hb2
    have hb3 : b = ⟨db.nextId, uid, m, r, ts⟩ := by simpa using hb2
    subst hb3
    exact hb a ha
  · intro t ht
    show t.id < db.nextId + 1
    rcases List.mem_append.mp ht with h1 | h2
    · exact Nat.lt_succ_of_lt (hb t h1)
    · have h3 : t = ⟨db.nextId, uid, m, r, ts⟩ := by simpa using h2
      subst h3
      exact Nat.lt_succ_self _

theorem wf_clear {db : Database} (h : db.WF) (uid : String) :
    (db.clear_user_history uid).WF := by
  obtain ⟨hp, hb⟩ := h
  refine ⟨List.Pairwise.sublist (List.filter_sublist _) hp, ?_⟩
  intro t ht
  exact hb t (List.mem_of_mem_filter ht)

theorem reachable_wf {db : Database} (h : Reachable db) : db.WF := by
  induction h with
  | empty => exact wf_empty
  | save db uid m r ts _ ih => exact wf_save ih uid m r ts
  | clear db uid _ ih => exact wf_clear ih uid

theorem count_save_self (db : Database) (uid m r ts : String) :
    (db.save_conversation uid m r ts).get_conversation_count uid
      = db.get_conversation_count uid + 1 :=
  statsCount_upsert_self db.user_stats uid ts

theorem count_save_other {u v : String} (huv : u ≠ v) (db : Database) (m r ts : String) :
    (db.save_conversation u m r ts).get_conversation_count v
      = db.get_conversation_count v :=
  statsCount_upsert_other huv db.user_stats ts

theorem count_clear_self (db : Database) (uid : String) :
    (db.clear_user_history uid).get_conversation_count uid = 0 :=
  statsCount_filter_self db.user_stats uid

theorem count_clear_other {u v : String} (huv : u ≠ v) (db : Database) :
    (db.clear_user_history u).get_conversation_count v = db.get_conversation_count v :=
  statsCount_filter_other huv db.user_stats

theorem exDb_reachable : Reachable exDb :=
  Reachable.save _ "u" "m2" "r2" "t2" (Reachable.save _ "u" "m1" "r1" "t1" Reachable.empty)

/-! ### Claim theorems -/

/-- C2: for every user and limit, the history window has at most
`limit` elements and consists exactly of the most recent `limit` turns
stored for that user, ordered oldest to newest (the suffix of the
user's rows in insertion order), hence in strictly increasing
store-assigned id order; the returned dictionaries are the column
projection of those rows. -/
theorem c2_history_window (db : Database) (uid : String) (L : Nat) (h : Reachable db) :
    (db.get_conversation_history uid L).length ≤ L ∧
    db.historyRows uid L = (db.userRows uid).drop ((db.userRows uid).length - L) ∧
    (db.historyRows uid L).Pairwise (fun a b => a.id < b.id) ∧
    db.get_conversation_history uid L = (db.historyRows uid L).map Turn.toEntry := by
  have hwf := reachable_wf h
  have hdrop := historyRows_eq_drop hwf uid L
  refine ⟨?_, hdrop, ?_, rfl⟩
  · unfold Database.get_conversation_history
    rw [List.length_map]
    exact historyRows_length_le db uid L
  · rw [hdrop]
    exact List.Pairwise.sublist (List.drop_sublist _ _) (userRows_pairwise hwf uid)

/-- Witness for C2 at the concrete reachable state `exDb`. -/
theorem c2_history_window_witness :
    (exDb.get_conversation_history "u" 1).length ≤ 1 ∧
    exDb.historyRows "u" 1 = (exDb.userRows "u").drop ((exDb.userRows "u").length - 1) ∧
    (exDb.historyRows "u" 1).Pairwise (fun a b => a.id < b.id) ∧
    exDb.get_conversation_history "u" 1 = (exDb.historyRows "u" 1).map Turn.toEntry :=
  c2_history_window exDb "u" 1 exDb_reachable

/-- C3: after a save the user's conversation count is exactly one
greater than before, and the history window (any limit N ≥ 1) ends
with the newly saved turn, both as the raw row with its fresh
store-assigned id and as the returned dictionary. -/
theorem c3_save_appends (db : Database) (uid m r ts : String) (N : Nat)
    (hdb : Reachable db) (hN : 1 ≤ N) :
    (db.save_conversation uid m r ts).get_conversation_count uid
      = db.get_conversation_count uid + 1 ∧
    ((db.save_conversation uid m r ts).historyRows uid N).getLast?
      = some ⟨db.nextId, uid, m, r, ts⟩ ∧
    ((db.save_conversation uid m r ts).get_conversation_history uid N).getLast?
      = some ⟨m, r, ts⟩ := by
  have hwf : (db.save_conversation uid m r ts).WF := wf_save (reachable_wf hdb) uid m r ts
  have hrows := historyRows_eq_drop hwf uid N
  rw [userRows_save_self] at hrows
  have hlen : (db.userRows uid ++ [(⟨db.nextId, uid, m, r, ts⟩ : Turn)]).length - N
      ≤ (db.userRows uid).length := by
    rw [List.length_append, List.length_singleton]
    omega
  have hsplit : (db.userRows uid ++ [(⟨db.nextId, uid, m, r, ts⟩ : Turn)]).drop
      ((db.userRows uid ++ [(⟨db.nextId, uid, m, r, ts⟩ : Turn)]).length - N)
      = (db.userRows uid).drop
          ((db.userRows uid ++ [(⟨db.nextId, uid, m, r, ts⟩ : Turn)]).length - N)
        ++ [(⟨db.nextId, uid, m, r, ts⟩ : Turn)] :=
    List.drop_append_of_le_length hlen
  refine ⟨count_save_self db uid m r ts, ?_, ?_⟩
  · rw [hrows, hsplit]
    exact List.getLast?_concat _
  · unfold Database.get_conversation_history
    rw [List.getLast?_map, hrows, hsplit, List.getLast?_concat]
    rfl

/-- Witness for C3 at the concrete reachable state `exDb` with N = 5. -/
theorem c3_save_appends_witness :
    (exDb.save_conversation "u" "m3" "r3" "t3").get_conversation_count "u"
      = exDb.get_conversation_count "u" + 1 ∧
    ((exDb.save_conversation "u" "m3" "r3" "t3").historyRows "u" 5).getLast?
      = some ⟨exDb.nextId, "u", "m3", "r3", "t3"⟩ ∧
    ((exDb.save_conversation "u" "m3" "r3" "t3").get_conversation_history "u" 5).getLast?
      = some ⟨"m3", "r3", "t3"⟩ :=
  c3_save_appends exDb "u" "m3" "r3" "t3" 5 exDb_reachable (by omega)

/-- C4: in every state reachable by saves and clears from the empty
store, the recorded counter equals the number of conversation rows of
the user, and a user with no rows has count 0. -/
theorem c4_count_invariant (db : Database) (uid : String) (h : Reachable db) :
    db.get_conversation_count uid = (db.userRows uid).length ∧
    (db.userRows uid = [] → db.get_conversation_count uid = 0) := by
  have main : db.get_conversation_count uid = (db.userRows uid).length := by
    induction h with
    | empty => rfl
    | save db0 u m r ts _ ih =>
      by_cases huv : u = uid
      · subst huv
        rw [count_save_self, userRows_save_self, List.length_append,
          List.length_singleton, ih]
      · rw [count_save_other huv, userRows_save_other huv, ih]
    | clear db0 u _ ih =>
      by_cases huv : u = uid
      · subst huv
        rw [count_clear_self, userRows_clear_self]
        rfl
      · rw [count_clear_other huv, userRows_clear_other huv, ih]
  refine ⟨main, fun he => ?_⟩
  rw [main, he]
  rfl

/-- Witness for C4 at the concrete reachable state `exDb`, for the user
`u` that has rows and for the user `w` that has none. -/
theorem c4_count_invariant_witness :
    exDb.get_conversation_count "u" = (exDb.userRows "u").length ∧
    exDb.get_conversation_count "w" = (exDb.userRows "w").length ∧
    exDb.get_conversation_count "w" = 0 :=
  ⟨(c4_count_invariant exDb "u" exDb_reachable).1,
   (c4_count_invariant exDb "w" exDb_reachable).1,
   (c4_count_invariant exDb "w" exDb_reachable).2 (by decide)⟩

/-- C5: a request whose message is empty after trimming whitespace is
rejected with the 400 `Message cannot be empty` response; the database
is unchanged and no outbound provider call is performed. -/
theorem c5_empty_message (db : Database) (key : String) (outcome : ProviderOutcome)
    (raw uid ts : String) (h : pyStrip raw = "") :
    chat db key outcome raw uid ts
      = (ChatResult.badRequest "Message cannot be empty", db, []) := by
  simp [chat, h]

/-- Witness for C5 at a whitespace-only message. -/
theorem c5_empty_message_witness :
    pyStrip " \t " = "" ∧
    chat exDb "key" ProviderOutcome.timeout " \t " "u" "t"
      = (ChatResult.badRequest "Message cannot be empty", exDb, []) :=
  ⟨by decide,
   c5_empty_message exDb "key" ProviderOutcome.timeout " \t " "u" "t" (by decide)⟩

/-- C6: when the outbound provider call fails (missing API credential,
non-200 response or timeout) the handler reports a 500-class error and
persists nothing: the database after the failed invocation equals the
database before it. -/
theorem c6_provider_failure (db : Database) (key : String) (outcome : ProviderOutcome)
    (raw uid ts : String) (hmsg : pyStrip raw ≠ "")
    (hfail : key = "" ∨ outcome = ProviderOutcome.timeout ∨
      ∃ s t, outcome = ProviderOutcome.httpError s t) :
    ((chat db key outcome raw uid ts).1).isServerError = true ∧
    (chat db key outcome raw uid ts).2.1 = db := by
  by_cases hk : key = ""
  · subst hk
    constructor <;> simp [chat, call_openrouter_api, hmsg, ChatResult.isServerError]
  · rcases hfail with hk2 | hout | ⟨s, t, hout⟩
    · exact absurd hk2 hk
    · subst hout
      constructor <;>
        simp [chat, call_openrouter_api, hmsg, hk, ChatResult.isServerError]
    · subst hout
      constructor <;>
        simp [chat, call_openrouter_api, hmsg, hk, ChatResult.isServerError]

/-- Witness for C6 at a simulated upstream timeout. -/
theorem c6_provider_failure_witness :
    pyStrip "Hello" ≠ "" ∧
    ((chat exDb "key" ProviderOutcome.timeout "Hello" "u" "t").1).isServerError = true ∧
    (chat exDb "key" ProviderOutcome.timeout "Hello" "u" "t").2.1 = exDb := by
  refine ⟨by decide, ?_⟩
  exact c6_provider_failure exDb "key" ProviderOutcome.timeout "Hello" "u" "t"
    (by decide) (Or.inr (Or.inl rfl))

/-- C8: after `clear` the user's count is 0 and the history is empty
for every limit; `clear` is idempotent, and on a state with no data
for the user it is a no-op. -/
theorem c8_clear_semantics (db : Database) (uid : String) :
    (db.clear_user_history uid).get_conversation_count uid = 0 ∧
    (∀ L, (db.clear_user_history uid).get_conversation_history uid L = []) ∧
    (db.clear_user_history uid).clear_user_history uid = db.clear_user_history uid ∧
    ((∀ t ∈ db.conversations, t.user_id ≠ uid) →
      (∀ s ∈ db.user_stats, s.user_id ≠ uid) → db.clear_user_history uid = db) := by
  have hff : ∀ {α : Type} (p : α → Bool) (l : List α),
      (l.filter p).filter p = l.filter p := by
    intro α p l
    rw [List.filter_filter]
    apply List.filter_congr
    intro x _
    cases p x <;> rfl
  refine ⟨count_clear_self db uid, ?_, ?_, ?_⟩
  · intro L
    unfold Database.get_conversation_history Database.historyRows
    rw [userRows_clear_self]
    simp [sortDescById]
  · unfold Database.clear_user_history
    rw [hff, hff]
  · intro hc hs
    unfold Database.clear_user_history
    have h1 : db.conversations.filter (fun t => !(t.user_id == uid)) = db.conversations :=
      List.filter_eq_self.mpr (fun t ht => by simp [hc t ht])
    have h2 : db.user_stats.filter (fun s => !(s.user_id == uid)) = db.user_stats :=
      List.filter_eq_self.mpr (fun s hsm => by simp [hs s hsm])
    rw [h1, h2]

/-- Witness for C8: clearing a user with no data at `exDb`. -/
theorem c8_clear_semantics_witness :
    (exDb.clear_user_history "v").get_conversation_count "v" = 0 ∧
    exDb.clear_user_history "v" = exDb :=
  ⟨(c8_clear_semantics exDb "v").1,
   (c8_clear_semantics exDb "v").2.2.2 (by decide) (by decide)⟩

/-- C9: saves and clears scoped to user u leave every other user v's
count and history unchanged. -/
theorem c9_user_isolation (db : Database) (u v m r ts : String) (L : Nat) (huv : u ≠ v) :
    (db.save_conversation u m r ts).get_conversation_count v
      = db.get_conversation_count v ∧
    (db.save_conversation u m r ts).get_conversation_history v L
      = db.get_conversation_history v L ∧
    (db.clear_user_history u).get_conversation_count v = db.get_conversation_count v ∧
    (db.clear_user_history u).get_conversation_history v L
      = db.get_conversation_history v L := by
  refine ⟨count_save_other huv db m r ts, ?_, count_clear_other huv db, ?_⟩
  · unfold Database.get_conversation_history Database.historyRows
    rw [userRows_save_other huv]
  · unfold Database.get_conversation_history Database.historyRows
    rw [userRows_clear_other huv]

/-- Witness for C9 at `exDb` with users u and v. -/
theorem c9_user_isolation_witness :
    ("u" : String) ≠ "v" ∧
    ((exDb.save_conversation "u" "m3" "r3" "t3").get_conversation_count "v"
        = exDb.get_conversation_count "v" ∧
      (exDb.save_conversation "u" "m3" "r3" "t3").get_conversation_history "v" 3
        = exDb.get_conversation_history "v" 3 ∧
      (exDb.clear_user_history "u").get_conversation_count "v"
        = exDb.get_conversation_count "v" ∧
      (exDb.clear_user_history "u").get_conversation_history "v" 3
        = exDb.get_conversation_history "v" 3) :=
  ⟨by decide, c9_user_isolation exDb "u" "v" "m3" "r3" "t3" 3 (by decide)⟩

theorem foldl_history_pairs (l : List HistoryEntry) (acc : List Message) :
    l.foldl (fun acc2 msg =>
        acc2 ++ [Message.mk "user" msg.user_message,
          Message.mk "assistant" msg.ai_response]) acc
      = acc ++ l.flatMap (fun msg =>
          [Message.mk "user" msg.user_message,
            Message.mk "assistant" msg.ai_response]) := by
  induction l generalizing acc with
  | nil => simp
  | cons e t ih => simp [ih, List.flatMap_cons, List.append_assoc]

theorem length_flatMap_pair {α : Type} (f g : α → Message) (l : List α) :
    (l.flatMap (fun x => [f x, g x])).length = 2 * l.length := by
  induction l with
  | nil => rfl
  | cons e t ih =>
    simp only [List.flatMap_cons, List.length_append, List.length_cons, ih]
    simp
    omega

theorem chat_calls (db : Database) (key : String) (outcome : ProviderOutcome)
    (raw uid ts : String) (hmsg : pyStrip raw ≠ "") (hkey : key ≠ "") :
    (chat db key outcome raw uid ts).2.2 =
      [Message.mk "system" SYSTEM_PROMPT ::
        ((db.get_conversation_history uid 10).flatMap (fun msg =>
            [Message.mk "user" msg.user_message,
              Message.mk "assistant" msg.ai_response])
          ++ [Message.mk "user" (pyStrip raw)])] := by
  cases outcome <;>
    simp [chat, call_openrouter_api, hmsg, hkey, foldl_history_pairs]

/-- C7: whenever the handler reaches the provider (non-empty trimmed
message, credential configured), it performs exactly one outbound call
whose message sequence is the fixed system preamble, then the last 10
stored turns of the user in chronological order flattened into
user/assistant pairs, then the trimmed new message as the final user
entry; the sequence has 2 * min 10 (stored turn count) + 2 entries. -/
theorem c7_provider_payload (db : Database) (key : String) (outcome : ProviderOutcome)
    (raw uid ts : String) (hdb : Reachable db) (hmsg : pyStrip raw ≠ "") (hkey : key ≠ "") :
    (chat db key outcome raw uid ts).2.2 =
      [Message.mk "system" SYSTEM_PROMPT ::
        (((db.userRows uid).drop ((db.userRows uid).length - 10)).flatMap (fun t =>
            [Message.mk "user" t.user_message, Message.mk "assistant" t.ai_response])
          ++ [Message.mk "user" (pyStrip raw)])] ∧
    ((chat db key outcome raw uid ts).2.2).map List.length
      = [2 * min 10 (db.userRows uid).length + 2] := by
  have hwf := reachable_wf hdb
  have hcalls := chat_calls db key outcome raw uid ts hmsg hkey
  have hhist : db.get_conversation_history uid 10
      = ((db.userRows uid).drop ((db.userRows uid).length - 10)).map Turn.toEntry := by
    unfold Database.get_conversation_history
    rw [historyRows_eq_drop hwf]
  have hflat : (db.get_conversation_history uid 10).flatMap (fun msg =>
        [Message.mk "user" msg.user_message, Message.mk "assistant" msg.ai_response])
      = ((db.userRows uid).drop ((db.userRows uid).length - 10)).flatMap (fun t =>
          [Message.mk "user" t.user_message, Message.mk "assistant" t.ai_response]) := by
    rw [hhist, List.flatMap_map]
    rfl
  rw [hcalls, hflat]
  refine ⟨rfl, ?_⟩
  simp only [List.map_cons, List.map_nil, List.length_cons, List.length_append,
    length_flatMap_pair (fun t : Turn => Message.mk "user" t.user_message)
      (fun t : Turn => Message.mk "assistant" t.ai_response), List.length_drop,
    List.length_singleton, List.length_nil]
  congr 1
  omega

/-- Witness for C7 at the concrete reachable state `exDb`. -/
theorem c7_provider_payload_witness :
    pyStrip "Hi" ≠ "" ∧
    (chat exDb "k" (ProviderOutcome.success "ok") "Hi" "u" "t9").2.2
      = [Message.mk "system" SYSTEM_PROMPT ::
          (((exDb.userRows "u").drop ((exDb.userRows "u").length - 10)).flatMap (fun t =>
              [Message.mk "user" t.user_message, Message.mk "assistant" t.ai_response])
            ++ [Message.mk "user" (pyStrip "Hi")])] ∧
    ((chat exDb "k" (ProviderOutcome.success "ok") "Hi" "u" "t9").2.2).map List.length
      = [2 * min 10 (exDb.userRows "u").length + 2] := by
  have h := c7_provider_payload exDb "k" (ProviderOutcome.success "ok") "Hi" "u" "t9"
    exDb_reachable (by decide) (by decide)
  exact ⟨by decide, h.1, h.2⟩

/-- C10: the handler acts on the whitespace-trimmed message: the final
user entry of every sent payload is the trimmed string, and on success
the persisted turn stores the trimmed string as its user_message. -/
theorem c10_trimmed_message (db : Database) (key : String) (raw uid ts c : String)
    (hmsg : pyStrip raw ≠ "") (hkey : key ≠ "") :
    (∀ outcome : ProviderOutcome, ∀ p ∈ (chat db key outcome raw uid ts).2.2,
      p.getLast? = some (Message.mk "user" (pyStrip raw))) ∧
    (chat db key (ProviderOutcome.success c) raw uid ts).2.1.conversations
      = db.conversations ++ [⟨db.nextId, uid, pyStrip raw, c, ts⟩] := by
  constructor
  · intro outcome p hp
    rw [chat_calls db key outcome raw uid ts hmsg hkey] at hp
    have hp2 : p = Message.mk "system" SYSTEM_PROMPT ::
        ((db.get_conversation_history uid 10).flatMap (fun msg =>
            [Message.mk "user" msg.user_message,
              Message.mk "assistant" msg.ai_response])
          ++ [Message.mk "user" (pyStrip raw)]) := by simpa using hp
    subst hp2
    rw [← List.cons_append, List.getLast?_concat]
  · simp [chat, call_openrouter_api, hmsg, hkey, Database.save_conversation]

/-- Witness for C10: a message with surrounding whitespace is stored
trimmed. -/
theorem c10_trimmed_message_witness :
    pyStrip "  hi " ≠ "" ∧
    (chat exDb "k" (ProviderOutcome.success "resp") "  hi " "u" "t9").2.1.conversations
      = exDb.conversations ++ [⟨exDb.nextId, "u", pyStrip "  hi ", "resp", "t9"⟩] :=
  ⟨by decide,
   (c10_trimmed_message exDb "k" "  hi " "u" "t9" "resp" (by decide) (by decide)).2⟩
